import Mathlib

/-!
# FMFirebaseFace backend (`Backend/index.js`)

A shallow embedding of the face-matching backend: the best-match scan and the
threshold gate of the `/upload` handler, the response it builds, and the
preload loop that fills `knownFaces` from the object store.

Numbers are JavaScript doubles in the source; here they are rationals, so the
order and the arithmetic are exact.  The face-api, canvas, object-store and
document-store libraries are external: their operations are parameters of the
embedding (`Env`, `StoredFile`), each returning either a value or a thrown
error.
-/

namespace FMFirebaseFace

/-! ## Data model -/

/-- A face descriptor: the numeric vector produced by the extraction library. -/
abbrev Descriptor := List ℚ

/-- An element of the global `knownFaces` array: `{ name, descriptor }`. -/
structure Face where
  name : String
  descriptor : Descriptor
  deriving DecidableEq, Repr

/-- The running value `best` of the scan: `{ name, distance }`, where `name`
is `null` (here `none`) or a string. -/
structure Best where
  name : Option String
  distance : ℚ
  deriving DecidableEq, Repr

/-- The library distance function `faceapi.euclideanDistance`, a parameter.  It
is applied to descriptors produced by the same extraction network, which have
one fixed length; on those it returns a number and does not throw. -/
abbrev Distance := Descriptor → Descriptor → ℚ

/-! ## Best-match scan (`index.js` lines 71-76) -/

/-- One iteration of `for (let face of knownFaces)`:
`const d = euclideanDistance(q, face.descriptor);
 if (d < best.distance) best = { name: face.name, distance: d }`. -/
def scanStep (euclideanDistance : Distance) (q : Descriptor) (best : Best) (face : Face) : Best :=
  let d := euclideanDistance q face.descriptor
  if d < best.distance then { name := some face.name, distance := d } else best

/-- The scan: `let best = { name: null, distance: 1 }` followed by the loop
over `knownFaces` in array order. -/
def bestMatch (euclideanDistance : Distance) (q : Descriptor) (knownFaces : List Face) : Best :=
  knownFaces.foldl (scanStep euclideanDistance q) { name := none, distance := 1 }

/-- Sum of the squared component differences of two descriptors. -/
def sqDist (a b : Descriptor) : ℚ :=
  (List.zipWith (fun x y => (x - y) ^ 2) a b).sum

/-- The distance function `dist` is the Euclidean distance between the query `q`
and every descriptor of the index: non-negative, with square the sum of the
squared differences, on descriptors of the query's length. -/
def EuclideanOn (dist : Distance) (q : Descriptor) (knownFaces : List Face) : Prop :=
  ∀ f ∈ knownFaces, f.descriptor.length = q.length ∧
    0 ≤ dist q f.descriptor ∧ dist q f.descriptor ^ 2 = sqDist q f.descriptor

instance (dist : Distance) (q : Descriptor) (knownFaces : List Face) :
    Decidable (EuclideanOn dist q knownFaces) := by
  unfold EuclideanOn
  infer_instance

/-- Euclidean distance of descriptors with a single component, `|a₀ - b₀|`:
an exact instance of the library function on such descriptors. -/
def dist1 : Distance := fun a b => |a.headD 0 - b.headD 0|

/-! ## Identity key derivation (`index.js` lines 133-134) -/

/-- JavaScript `s.split(sep)` for a one-character separator, on the list of
characters of `s`: the list of the pieces between separators (never empty). -/
def split (sep : Char) : List Char → List (List Char)
  | [] => [[]]
  | c :: cs =>
    if c = sep then [] :: split sep cs
    else
      match split sep cs with
      | [] => [[c]]
      | p :: ps => (c :: p) :: ps

/-- Value of `file.name.split('/').pop()`: the last piece. -/
def fullName (name : String) : String :=
  String.mk ((split '/' name.toList).getLastD [])

/-- Value of `fullName.split('.').shift()`: the first piece. -/
def baseName (name : String) : String :=
  String.mk ((split '.' (fullName name).toList).headD [])

/-- Key as the specification words it: the directory prefix removed (everything
up to and including the last `/`), and only the final extension removed (the
last `.` and what follows it). -/
def specKey (name : String) : String :=
  let file := (name.toList.reverse.takeWhile (fun c => c ≠ '/')).reverse
  String.mk (if '.' ∈ file then (file.reverse.dropWhile (fun c => c ≠ '.')).tail.reverse else file)

/-! ## External calls, exceptions and the trace of calls -/

/-- A thrown JavaScript `Error`, with its `message`. -/
structure Err where
  message : String
  deriving DecidableEq, Repr

/-- Bytes of an uploaded or downloaded file. -/
abbrev Buffer := List Nat

/-- A decoded image, as returned by `canvas.loadImage`. -/
structure Image where
  pixels : List Nat
  deriving DecidableEq, Repr

/-- A document of collection `tbl_face1`: the fields the handler reads. -/
structure IdentityRecord where
  label : String
  fechaNacimiento : String
  tlfEmergencia : String
  cedula : String
  imgUrl : String
  deriving DecidableEq, Repr

/-- The object `match` of the success payload. -/
structure Match where
  label : String
  fechaNacimiento : String
  tlfEmergencia : String
  cedula : String
  imgUrl : String
  distance : ℚ
  deriving DecidableEq, Repr

/-- What the handler sends: the HTTP status and the `matches` array of the body
(field `matchList`, as `matches` is reserved). -/
structure Response where
  status : Nat
  matchList : List Match
  deriving DecidableEq, Repr

/-- An invocation of an external capability. -/
inductive Call where
  | loadImage (buffer : Buffer)
  | detectSingleFace (img : Image)
  | docGet (key : String)
  | getMetadata (name : String)
  | download (name : String)
  deriving DecidableEq, Repr

/-- The external capabilities used by the handler and by the preload loop.
Each may throw, except the distance function, which is pure. -/
structure Env where
  loadImage : Buffer → Except Err Image
  detectSingleFace : Image → Except Err (Option Descriptor)
  euclideanDistance : Distance
  docGet : String → Except Err (Option IdentityRecord)

/-- A computation that may throw and that records, in order, the external
calls it makes: from the trace so far to the outcome and the extended trace. -/
def Eff (α : Type) : Type := List Call → Except Err α × List Call

namespace Eff

/-- Return a value without any call. -/
def ret {α : Type} (a : α) : Eff α := fun t => (.ok a, t)

/-- Sequencing: a thrown error skips the continuation. -/
def andThen {α β : Type} (x : Eff α) (f : α → Eff β) : Eff β := fun t =>
  match x t with
  | (.ok a, t1) => f a t1
  | (.error e, t1) => (.error e, t1)

/-- Perform the external call `c`, whose outcome is `r`. -/
def call {α : Type} (c : Call) (r : Except Err α) : Eff α := fun t => (r, t ++ [c])

/-- The statement `try { x } catch (e) { h e }`. -/
def tryCatch {α : Type} (x : Eff α) (h : Err → Eff α) : Eff α := fun t =>
  match x t with
  | (.ok a, t1) => (.ok a, t1)
  | (.error e, t1) => h e t1

end Eff

instance : Monad Eff where
  pure := Eff.ret
  bind := Eff.andThen

/-! ## The `/upload` handler (`index.js` lines 35-115) -/

/-- JavaScript `!name` for a value that is `null` or a string: true for `null`
and for the empty string. -/
def isFalsy (name : Option String) : Bool :=
  match name with
  | none => true
  | some s => s == ""

/-- Value of `parseFloat(x.toFixed(3))`.  `toFixed` works on the absolute value
and restores the sign; for an absolute value below `10^21` it takes the integer
`n` with `n / 1000` closest to it, the larger one on a tie; otherwise it prints
the number itself. -/
def toFixed3 (x : ℚ) : ℚ :=
  let a := if x < 0 then -x else x
  let r := if (10 : ℚ) ^ 21 ≤ a then a else (⌊a * 1000 + 1 / 2⌋ : ℚ) / 1000
  if x < 0 then -r else r

/-- The condition of the threshold gate: `!best.name || best.distance > 0.6`. -/
def gateRejects (best : Best) : Bool :=
  isFalsy best.name || decide (best.distance > 0.6)

/-- The body `{ matches: [] }` sent with the default status 200. -/
def emptyMatches : Response := { status := 200, matchList := [] }

/-- The `try` block of the handler, for an uploaded file. -/
def uploadTry (env : Env) (knownFaces : List Face) (buffer : Buffer) : Eff Response := do
  let uploadImg ← Eff.call (.loadImage buffer) (env.loadImage buffer)
  let uploadDet ← Eff.call (.detectSingleFace uploadImg) (env.detectSingleFace uploadImg)
  match uploadDet with
  | none => pure emptyMatches
  | some descriptor =>
    let best := bestMatch env.euclideanDistance descriptor knownFaces
    if gateRejects best then pure emptyMatches
    else do
      let key := best.name.getD ""
      let doc ← Eff.call (.docGet key) (env.docGet key)
      match doc with
      | none => pure emptyMatches
      | some data =>
        let match1 : Match :=
          { label := data.label
            fechaNacimiento := data.fechaNacimiento
            tlfEmergencia := data.tlfEmergencia
            cedula := data.cedula
            imgUrl := data.imgUrl
            distance := toFixed3 best.distance }
        pure { status := 200, matchList := [match1] }

/-- The handler of `POST /upload`; `file` is `req.file`, absent when nothing
was uploaded.  The `catch` block answers status 500 with `{ matches: [] }`. -/
def upload (env : Env) (knownFaces : List Face) (file : Option Buffer) : Eff Response :=
  match file with
  | none => pure emptyMatches
  | some buffer =>
    Eff.tryCatch (uploadTry env knownFaces buffer)
      (fun _err => pure { status := 500, matchList := [] })

/-! ## The preload loop (`index.js` lines 130-165) -/

/-- An object listed by `bucket.getFiles`: its name, and the outcomes of
`getMetadata()` (the `contentType` of the metadata, possibly undefined) and of
`download()`. -/
structure StoredFile where
  name : String
  getMetadata : Except Err (Option String)
  download : Except Err Buffer

/-- The test `(metadata.contentType || '').startsWith('image/')`. -/
def isImageType (contentType : Option String) : Bool :=
  "image/".toList.isPrefixOf (contentType.getD "").toList

/-- The `try` block of one iteration; the result is `knownFaces` after it. -/
def preloadTry (env : Env) (file : StoredFile) (knownFaces : List Face) : Eff (List Face) := do
  let contentType ← Eff.call (.getMetadata file.name) file.getMetadata
  if !isImageType contentType then pure knownFaces
  else do
    let buffer ← Eff.call (.download file.name) file.download
    let img ← Eff.call (.loadImage buffer) (env.loadImage buffer)
    let det ← Eff.call (.detectSingleFace img) (env.detectSingleFace img)
    match det with
    | some descriptor => pure (knownFaces ++ [{ name := baseName file.name, descriptor := descriptor }])
    | none => pure knownFaces

/-- One iteration of `for (let file of files)`: the `try` block, and the
`catch` block, which only logs. -/
def preloadFile (env : Env) (file : StoredFile) (knownFaces : List Face) : Eff (List Face) :=
  Eff.tryCatch (preloadTry env file knownFaces) (fun _e => pure knownFaces)

/-- The loop over the listed files, from the current `knownFaces`. -/
def preloadLoop (env : Env) : List StoredFile → List Face → Eff (List Face)
  | [], knownFaces => pure knownFaces
  | file :: rest, knownFaces => do
    let knownFaces1 ← preloadFile env file knownFaces
    preloadLoop env rest knownFaces1

/-- The preload: `knownFaces` starts empty (`let knownFaces = []`). -/
def preload (env : Env) (files : List StoredFile) : Eff (List Face) :=
  preloadLoop env files []

/-- The entry an object contributes, if any: it is an image, downloads,
decodes, and a face descriptor is extracted from it. -/
def loadedFace (env : Env) (file : StoredFile) : Option Face :=
  match file.getMetadata with
  | .error _ => none
  | .ok contentType =>
    if isImageType contentType then
      match file.download with
      | .error _ => none
      | .ok buffer =>
        match env.loadImage buffer with
        | .error _ => none
        | .ok img =>
          match env.detectSingleFace img with
          | .ok (some descriptor) => some { name := baseName file.name, descriptor := descriptor }
          | _ => none
    else none

/-- The names of the objects whose metadata was requested, in trace order. -/
def metadataRequests (trace : List Call) : List String :=
  trace.filterMap (fun c => match c with | .getMetadata n => some n | _ => none)

/-- The keys looked up in the document store, in trace order. -/
def docLookups (trace : List Call) : List String :=
  trace.filterMap (fun c => match c with | .docGet k => some k | _ => none)

/-! ## Sample inputs -/

/-- A small index of one-component descriptors. -/
def sampleFaces : List Face :=
  [{ name := "bob", descriptor := [1 / 2] },
   { name := "alice", descriptor := [1 / 5] },
   { name := "carol", descriptor := [-1 / 5] }]

/-- A sample record for the key `alice`. -/
def aliceRecord : IdentityRecord :=
  { label := "Alice Smith", fechaNacimiento := "1990-01-01", tlfEmergencia := "555-0100",
    cedula := "V-1", imgUrl := "https://example.org/alice.jpg" }

/-- Sample capabilities: an empty buffer does not decode; an image whose first
pixel is 0 shows no face, one whose first pixel is 255 makes extraction throw,
and any other first pixel `p` gives the descriptor `[p / 10]`; the document
store holds `alice`, throws on `bob`, and has nothing else. -/
def sampleEnv : Env where
  loadImage := fun b => if b = [] then .error { message := "Unsupported image type" } else .ok { pixels := b }
  detectSingleFace := fun img =>
    match img.pixels with
    | [] => .ok none
    | p :: _ =>
      if p = 0 then .ok none
      else if p = 255 then .error { message := "tensor disposed" }
      else .ok (some [(p : ℚ) / 10])
  euclideanDistance := dist1
  docGet := fun key =>
    if key = "alice" then .ok (some aliceRecord)
    else if key = "bob" then .error { message := "DEADLINE_EXCEEDED" }
    else .ok none

/-- Five listed objects: the second is not an image, the fourth throws on
download, the other three are images with a face. -/
def sampleFiles : List StoredFile :=
  [{ name := "img/alice.jpg", getMetadata := .ok (some "image/jpeg"), download := .ok [2] },
   { name := "img/notes.txt", getMetadata := .ok (some "text/plain"), download := .ok [1] },
   { name := "img/bob.png", getMetadata := .ok (some "image/png"), download := .ok [5] },
   { name := "img/broken.jpg", getMetadata := .ok (some "image/jpeg"),
     download := .error { message := "ECONNRESET" } },
   { name := "img/carol.jpg", getMetadata := .ok (some "image/jpeg"), download := .ok [7] }]

/-! ## The scan: lemmas -/

/-- Invariant of the loop, from any starting value `b0`: either no entry is
strictly below `b0` and `b0` is kept, or the result is the first entry that
attains the minimum over the list, and that minimum is strictly below `b0`. -/
theorem foldl_scanStep (dist : Distance) (q : Descriptor) (l : List Face) :
    ∀ b0 : Best,
      (l.foldl (scanStep dist q) b0 = b0 ∧ ∀ f ∈ l, b0.distance ≤ dist q f.descriptor) ∨
      (∃ pre f post, l = pre ++ f :: post ∧
        l.foldl (scanStep dist q) b0 = { name := some f.name, distance := dist q f.descriptor } ∧
        dist q f.descriptor < b0.distance ∧
        (∀ g ∈ pre, dist q f.descriptor < dist q g.descriptor) ∧
        (∀ g ∈ post, dist q f.descriptor ≤ dist q g.descriptor)) := by
  induction l with
  | nil => intro b0; left; simp
  | cons f t ih =>
    intro b0
    by_cases hlt : dist q f.descriptor < b0.distance
    · have hstep : scanStep dist q b0 f = { name := some f.name, distance := dist q f.descriptor } := by
        simp [scanStep, hlt]
      rcases ih { name := some f.name, distance := dist q f.descriptor } with ⟨hr, hall⟩ | ⟨pre, g, post, hl, hr, hg, hpre, hpost⟩
      · right
        refine ⟨[], f, t, rfl, ?_, hlt, ?_, ?_⟩
        · simp only [List.foldl_cons, hstep, hr]
        · intro g hg; simp at hg
        · intro g hg; exact hall g hg
      · right
        simp only at hg
        refine ⟨f :: pre, g, post, by simp [hl], ?_, lt_trans hg hlt, ?_, hpost⟩
        · simp only [List.foldl_cons, hstep, hr]
        · intro x hx
          rcases List.mem_cons.mp hx with rfl | hx
          · exact hg
          · exact hpre x hx
    · have hstep : scanStep dist q b0 f = b0 := by simp [scanStep, hlt]
      rcases ih b0 with ⟨hr, hall⟩ | ⟨pre, g, post, hl, hr, hg, hpre, hpost⟩
      · left
        refine ⟨by simp only [List.foldl_cons, hstep, hr], ?_⟩
        intro x hx
        rcases List.mem_cons.mp hx with rfl | hx
        · exact not_lt.mp hlt
        · exact hall x hx
      · right
        refine ⟨f :: pre, g, post, by simp [hl], ?_, hg, ?_, hpost⟩
        · simp only [List.foldl_cons, hstep, hr]
        · intro x hx
          rcases List.mem_cons.mp hx with rfl | hx
          · exact lt_of_lt_of_le hg (not_lt.mp hlt)
          · exact hpre x hx

/-- The scan keeps the initial value exactly when no entry is below 1. -/
theorem bestMatch_eq_sentinel_iff (dist : Distance) (q : Descriptor) (knownFaces : List Face) :
    bestMatch dist q knownFaces = { name := none, distance := 1 } ↔
      ∀ f ∈ knownFaces, ¬ dist q f.descriptor < 1 := by
  unfold bestMatch
  rcases foldl_scanStep dist q knownFaces { name := none, distance := 1 } with
    ⟨hr, hall⟩ | ⟨pre, f, post, hl, hr, hf, _, _⟩
  · exact ⟨fun _ g hg => not_lt.mpr (hall g hg), fun _ => hr⟩
  · constructor
    · intro h
      rw [hr] at h
      simp at h
    · intro h
      exact absurd hf (h f (by simp [hl]))

/-- When some entry is below 1, the scan returns the first entry attaining the
minimum distance over the index. -/
theorem bestMatch_first_min (dist : Distance) (q : Descriptor) (knownFaces : List Face)
    (h : ∃ f ∈ knownFaces, dist q f.descriptor < 1) :
    ∃ pre f post, knownFaces = pre ++ f :: post ∧
      bestMatch dist q knownFaces = { name := some f.name, distance := dist q f.descriptor } ∧
      dist q f.descriptor < 1 ∧
      (∀ g ∈ pre, dist q f.descriptor < dist q g.descriptor) ∧
      (∀ g ∈ post, dist q f.descriptor ≤ dist q g.descriptor) := by
  unfold bestMatch
  rcases foldl_scanStep dist q knownFaces { name := none, distance := 1 } with
    ⟨_, hall⟩ | hex
  · obtain ⟨f, hf, hlt⟩ := h
    exact absurd hlt (not_lt.mpr (hall f hf))
  · exact hex

/-- A returned name comes with a distance below 1. -/
theorem bestMatch_name_lt_one (dist : Distance) (q : Descriptor) (knownFaces : List Face)
    (n : String) (h : (bestMatch dist q knownFaces).name = some n) :
    (bestMatch dist q knownFaces).distance < 1 := by
  unfold bestMatch at h ⊢
  rcases foldl_scanStep dist q knownFaces { name := none, distance := 1 } with
    ⟨hr, _⟩ | ⟨pre, f, post, _, hr, hf, _, _⟩
  · rw [hr] at h; simp at h
  · rw [hr]; exact hf

/-! ## The handler: one lemma per path -/

section Paths

variable (env : Env) (knownFaces : List Face) (buffer : Buffer) (t : List Call)

/-- No file: answered at once, no call. -/
theorem upload_no_file : upload env knownFaces none t = (.ok emptyMatches, t) := rfl

/-- Decoding throws: the `catch` block answers. -/
theorem upload_decode_throws (e : Err) (h1 : env.loadImage buffer = .error e) :
    upload env knownFaces (some buffer) t =
      (.ok { status := 500, matchList := [] }, t ++ [.loadImage buffer]) := by
  simp [upload, uploadTry, Eff.tryCatch, Eff.call, bind, Eff.andThen, pure, Eff.ret, h1]

/-- Extraction throws: the `catch` block answers. -/
theorem upload_detect_throws (img : Image) (e : Err) (h1 : env.loadImage buffer = .ok img)
    (h2 : env.detectSingleFace img = .error e) :
    upload env knownFaces (some buffer) t =
      (.ok { status := 500, matchList := [] },
        t ++ [.loadImage buffer, .detectSingleFace img]) := by
  simp [upload, uploadTry, Eff.tryCatch, Eff.call, bind, Eff.andThen, pure, Eff.ret, h1, h2]

/-- No face detected. -/
theorem upload_no_face (img : Image) (h1 : env.loadImage buffer = .ok img)
    (h2 : env.detectSingleFace img = .ok none) :
    upload env knownFaces (some buffer) t =
      (.ok emptyMatches, t ++ [.loadImage buffer, .detectSingleFace img]) := by
  simp [upload, uploadTry, Eff.tryCatch, Eff.call, bind, Eff.andThen, pure, Eff.ret, h1, h2]

/-- The gate rejects the best match. -/
theorem upload_gate_rejects (img : Image) (q : Descriptor) (h1 : env.loadImage buffer = .ok img)
    (h2 : env.detectSingleFace img = .ok (some q))
    (h3 : gateRejects (bestMatch env.euclideanDistance q knownFaces) = true) :
    upload env knownFaces (some buffer) t =
      (.ok emptyMatches, t ++ [.loadImage buffer, .detectSingleFace img]) := by
  simp [upload, uploadTry, Eff.tryCatch, Eff.call, bind, Eff.andThen, pure, Eff.ret, h1, h2, h3]

/-- The gate accepts and the document lookup throws. -/
theorem upload_lookup_throws (img : Image) (q : Descriptor) (e : Err)
    (h1 : env.loadImage buffer = .ok img)
    (h2 : env.detectSingleFace img = .ok (some q))
    (h3 : gateRejects (bestMatch env.euclideanDistance q knownFaces) = false)
    (h4 : env.docGet ((bestMatch env.euclideanDistance q knownFaces).name.getD "") = .error e) :
    upload env knownFaces (some buffer) t =
      (.ok { status := 500, matchList := [] },
        t ++ [.loadImage buffer, .detectSingleFace img,
          .docGet ((bestMatch env.euclideanDistance q knownFaces).name.getD "")]) := by
  simp [upload, uploadTry, Eff.tryCatch, Eff.call, bind, Eff.andThen, pure, Eff.ret, h1, h2, h3, h4]

/-- The gate accepts and the document does not exist. -/
theorem upload_no_record (img : Image) (q : Descriptor)
    (h1 : env.loadImage buffer = .ok img)
    (h2 : env.detectSingleFace img = .ok (some q))
    (h3 : gateRejects (bestMatch env.euclideanDistance q knownFaces) = false)
    (h4 : env.docGet ((bestMatch env.euclideanDistance q knownFaces).name.getD "") = .ok none) :
    upload env knownFaces (some buffer) t =
      (.ok emptyMatches,
        t ++ [.loadImage buffer, .detectSingleFace img,
          .docGet ((bestMatch env.euclideanDistance q knownFaces).name.getD "")]) := by
  simp [upload, uploadTry, Eff.tryCatch, Eff.call, bind, Eff.andThen, pure, Eff.ret, h1, h2, h3, h4]

/-- The gate accepts and the document exists. -/
theorem upload_record (img : Image) (q : Descriptor) (data : IdentityRecord)
    (h1 : env.loadImage buffer = .ok img)
    (h2 : env.detectSingleFace img = .ok (some q))
    (h3 : gateRejects (bestMatch env.euclideanDistance q knownFaces) = false)
    (h4 : env.docGet ((bestMatch env.euclideanDistance q knownFaces).name.getD "") =
      .ok (some data)) :
    upload env knownFaces (some buffer) t =
      (.ok { status := 200,
             matchList := [{ label := data.label, fechaNacimiento := data.fechaNacimiento,
                             tlfEmergencia := data.tlfEmergencia, cedula := data.cedula,
                             imgUrl := data.imgUrl,
                             distance := toFixed3
                               (bestMatch env.euclideanDistance q knownFaces).distance }] },
        t ++ [.loadImage buffer, .detectSingleFace img,
          .docGet ((bestMatch env.euclideanDistance q knownFaces).name.getD "")]) := by
  simp [upload, uploadTry, Eff.tryCatch, Eff.call, bind, Eff.andThen, pure, Eff.ret, h1, h2, h3, h4]

end Paths

/-- The gate in words: it rejects exactly when the name is `null` or empty, or
the distance exceeds 0.6. -/
theorem gateRejects_iff (best : Best) :
    gateRejects best = true ↔ best.name = none ∨ best.name = some "" ∨ best.distance > 0.6 := by
  rcases best with ⟨_ | n, d⟩ <;> simp [gateRejects, isFalsy]

/-! ## Claims on the scan -/

/-- C1, as stated, fails: an index of one entry at Euclidean distance 2 from the
query makes the scan return the initial value `{ name: null, distance: 1 }`,
which is no entry of the index. -/
theorem bestMatch_far_entry_not_returned :
    EuclideanOn dist1 [0] [{ name := "bob", descriptor := [2] }] ∧
    1 ≤ [({ name := "bob", descriptor := [2] } : Face)].length ∧
    bestMatch dist1 [0] [{ name := "bob", descriptor := [2] }] = { name := none, distance := 1 } ∧
    ¬ ∃ f ∈ [({ name := "bob", descriptor := [2] } : Face)],
        bestMatch dist1 [0] [{ name := "bob", descriptor := [2] }] =
          { name := some f.name, distance := dist1 [0] f.descriptor } := by
  refine ⟨?_, ?_, ?_, ?_⟩
  · simp [EuclideanOn, dist1, sqDist]
  · simp
  · simp [bestMatch, scanStep, dist1]
  · simp [bestMatch, scanStep, dist1]

/-- C1, amended: for every distance function (the Euclidean one included), every
query and every index holding at least one entry at distance below 1, the scan
returns one candidate that is an entry of the index, whose distance is at most
the distance of every entry, and which is the first such entry in scan order
(every earlier entry is strictly farther). -/
theorem bestMatch_returns_first_minimum (dist : Distance) (q : Descriptor)
    (knownFaces : List Face) (h : ∃ f ∈ knownFaces, dist q f.descriptor < 1) :
    ∃ pre f post, knownFaces = pre ++ f :: post ∧
      bestMatch dist q knownFaces = { name := some f.name, distance := dist q f.descriptor } ∧
      (∀ g ∈ knownFaces, dist q f.descriptor ≤ dist q g.descriptor) ∧
      (∀ g ∈ pre, dist q f.descriptor < dist q g.descriptor) := by
  obtain ⟨pre, f, post, hl, hr, _, hpre, hpost⟩ := bestMatch_first_min dist q knownFaces h
  refine ⟨pre, f, post, hl, hr, ?_, hpre⟩
  intro g hg
  rw [hl] at hg
  rcases List.mem_append.mp hg with hg | hg
  · exact le_of_lt (hpre g hg)
  · rcases List.mem_cons.mp hg with rfl | hg
    · exact le_refl _
    · exact hpost g hg

/-- Witness for C1: the sample index, queried at `[0]`; `alice` and `carol` tie
at distance 1/5. -/
theorem bestMatch_returns_first_minimum_witness :
    (∃ f ∈ sampleFaces, dist1 [0] f.descriptor < 1) ∧
    ∃ pre f post, sampleFaces = pre ++ f :: post ∧
      bestMatch dist1 [0] sampleFaces = { name := some f.name, distance := dist1 [0] f.descriptor } ∧
      (∀ g ∈ sampleFaces, dist1 [0] f.descriptor ≤ dist1 [0] g.descriptor) ∧
      (∀ g ∈ pre, dist1 [0] f.descriptor < dist1 [0] g.descriptor) :=
  have h : ∃ f ∈ sampleFaces, dist1 [0] f.descriptor < 1 :=
    ⟨{ name := "alice", descriptor := [1 / 5] }, by simp [sampleFaces],
      by norm_num [dist1, abs_of_nonneg]⟩
  ⟨h, bestMatch_returns_first_minimum dist1 [0] sampleFaces h⟩

/-- C9: the scan, exactly.  The returned distance is at most 1; the result is
the initial value `{ name: null, distance: 1 }` if and only if no entry is at
distance strictly below 1; otherwise it is the first entry attaining the
minimum distance over the index; and an entry at distance 1 or more is never
the result. -/
theorem bestMatch_characterisation (dist : Distance) (q : Descriptor) (knownFaces : List Face) :
    (bestMatch dist q knownFaces).distance ≤ 1 ∧
    (bestMatch dist q knownFaces = { name := none, distance := 1 } ↔
      ∀ f ∈ knownFaces, ¬ dist q f.descriptor < 1) ∧
    (bestMatch dist q knownFaces = { name := none, distance := 1 } ∨
      ∃ pre f post, knownFaces = pre ++ f :: post ∧
        bestMatch dist q knownFaces = { name := some f.name, distance := dist q f.descriptor } ∧
        (∀ g ∈ pre, dist q f.descriptor < dist q g.descriptor) ∧
        (∀ g ∈ post, dist q f.descriptor ≤ dist q g.descriptor)) ∧
    (∀ f ∈ knownFaces, 1 ≤ dist q f.descriptor →
      bestMatch dist q knownFaces ≠ { name := some f.name, distance := dist q f.descriptor }) := by
  have hcases := foldl_scanStep dist q knownFaces { name := none, distance := 1 }
  refine ⟨?_, bestMatch_eq_sentinel_iff dist q knownFaces, ?_, ?_⟩
  · unfold bestMatch
    rcases hcases with ⟨hr, _⟩ | ⟨_, f, _, _, hr, hf, _, _⟩
    · rw [hr]
    · rw [hr]; exact le_of_lt hf
  · unfold bestMatch
    rcases hcases with ⟨hr, _⟩ | ⟨pre, f, post, hl, hr, _, hpre, hpost⟩
    · exact Or.inl hr
    · exact Or.inr ⟨pre, f, post, hl, hr, hpre, hpost⟩
  · intro f _ hf heq
    have hlt := bestMatch_name_lt_one dist q knownFaces f.name (by rw [heq])
    rw [heq] at hlt
    exact absurd hlt (not_lt.mpr hf)

/-- Witness for C9: the sample index extended with an entry at distance 3. -/
theorem bestMatch_characterisation_witness :
    bestMatch dist1 [0] (sampleFaces ++ [{ name := "dave", descriptor := [3] }]) ≠
      { name := some "dave", distance := dist1 [0] [3] } :=
  (bestMatch_characterisation dist1 [0]
      (sampleFaces ++ [{ name := "dave", descriptor := [3] }])).2.2.2
    { name := "dave", descriptor := [3] } (by simp) (by norm_num [dist1])

/-! ## Claims on the key derivation -/

/-- C3: on the object name `img/john.doe.jpg` the preload derives the key
`john` (the text before the first `.`), whereas removing only the final
extension, as the claim words it, gives `john.doe`. -/
theorem baseName_multi_dot :
    fullName "img/john.doe.jpg" = "john.doe.jpg" ∧
    baseName "img/john.doe.jpg" = "john" ∧
    specKey "img/john.doe.jpg" = "john.doe" ∧
    baseName "img/john.doe.jpg" ≠ specKey "img/john.doe.jpg" := by
  decide

/-! ## Rounding -/

/-- For a non-negative number below `10^21`, `toFixed(3)` yields a multiple of
0.001 within 0.0005 of it. -/
theorem toFixed3_spec (x : ℚ) (h0 : 0 ≤ x) (h1 : x < 10 ^ 21) :
    (∃ n : ℤ, toFixed3 x = (n : ℚ) / 1000) ∧ |toFixed3 x - x| ≤ 1 / 2000 := by
  have hx : toFixed3 x = (⌊x * 1000 + 1 / 2⌋ : ℚ) / 1000 := by
    simp only [toFixed3, not_lt.mpr h0, if_false, not_le.mpr h1]
  have hlo : ((⌊x * 1000 + 1 / 2⌋ : ℤ) : ℚ) ≤ x * 1000 + 1 / 2 := Int.floor_le _
  have hhi : x * 1000 + 1 / 2 < ((⌊x * 1000 + 1 / 2⌋ : ℤ) : ℚ) + 1 := Int.lt_floor_add_one _
  refine ⟨⟨⌊x * 1000 + 1 / 2⌋, hx⟩, ?_⟩
  rw [hx, abs_le]
  constructor <;> linarith

/-! ## Claims on the handler -/

/-- C5: over an empty index the scan returns `{ name: null, distance: 1 }`
for every query descriptor, and a request whose image yields a descriptor is
then answered `{ matches: [] }` (status 200), without any document lookup. -/
theorem empty_index_sentinel (env : Env) (q : Descriptor) :
    bestMatch env.euclideanDistance q [] = { name := none, distance := 1 } ∧
    ∀ (buffer : Buffer) (img : Image) (t : List Call),
      env.loadImage buffer = .ok img → env.detectSingleFace img = .ok (some q) →
      upload env [] (some buffer) t =
        (.ok { status := 200, matchList := [] },
          t ++ [.loadImage buffer, .detectSingleFace img]) := by
  refine ⟨rfl, ?_⟩
  intro buffer img t h1 h2
  exact upload_gate_rejects env [] buffer t img q h1 h2 (by simp [bestMatch, gateRejects, isFalsy])

/-- Witness for C5: the sample capabilities, an image with descriptor `[1/2]`. -/
theorem empty_index_sentinel_witness :
    upload sampleEnv [] (some [5]) [] =
      (.ok { status := 200, matchList := [] },
        [.loadImage [5], .detectSingleFace { pixels := [5] }]) :=
  (empty_index_sentinel sampleEnv [1 / 2]).2 [5] { pixels := [5] } []
    (by simp [sampleEnv]) (by norm_num [sampleEnv])

/-- C2, as stated, fails: a best match whose key is the empty string (not
`null`) at distance 0 is answered `{ matches: [] }` without any document
lookup, although its distance is below 0.6. -/
theorem empty_key_not_accepted :
    (bestMatch sampleEnv.euclideanDistance [1 / 2] [{ name := "", descriptor := [1 / 2] }]).name ≠ none ∧
    (bestMatch sampleEnv.euclideanDistance [1 / 2] [{ name := "", descriptor := [1 / 2] }]).distance ≤ 0.6 ∧
    gateRejects (bestMatch sampleEnv.euclideanDistance [1 / 2]
      [{ name := "", descriptor := [1 / 2] }]) = true ∧
    upload sampleEnv [{ name := "", descriptor := [1 / 2] }] (some [5]) [] =
      (.ok { status := 200, matchList := [] },
        [.loadImage [5], .detectSingleFace { pixels := [5] }]) := by
  have hb : bestMatch sampleEnv.euclideanDistance [1 / 2] [{ name := "", descriptor := [1 / 2] }] =
      { name := some "", distance := 0 } := by
    simp [bestMatch, scanStep, sampleEnv, dist1]
  have hg : gateRejects (bestMatch sampleEnv.euclideanDistance [1 / 2]
      [{ name := "", descriptor := [1 / 2] }]) = true := by
    rw [hb]; simp [gateRejects, isFalsy]
  refine ⟨by rw [hb]; simp, by rw [hb]; norm_num, hg, ?_⟩
  exact upload_gate_rejects sampleEnv _ [5] [] { pixels := [5] } [1 / 2]
    (by simp [sampleEnv]) (by norm_num [sampleEnv]) hg

/-- C2, amended: for a request whose image decodes and yields a descriptor, with
`best` the result of the scan: when the key of `best` is neither `null` nor the
empty string, the request is answered `{ matches: [] }` without document lookup
if the distance exceeds 0.6, and proceeds to the document lookup of that key if
the distance is at most 0.6; when the key is `null` it is always answered
`{ matches: [] }`.  For a non-empty key the gate accepts the distances 0.6 and
0.599 and rejects 0.601. -/
theorem threshold_gate (env : Env) (knownFaces : List Face) (buffer : Buffer) (img : Image)
    (q : Descriptor) (t : List Call)
    (h1 : env.loadImage buffer = .ok img) (h2 : env.detectSingleFace img = .ok (some q)) :
    (∀ k, (bestMatch env.euclideanDistance q knownFaces).name = some k → k ≠ "" →
      (bestMatch env.euclideanDistance q knownFaces).distance > 0.6 →
      upload env knownFaces (some buffer) t =
        (.ok { status := 200, matchList := [] },
          t ++ [.loadImage buffer, .detectSingleFace img])) ∧
    (∀ k, (bestMatch env.euclideanDistance q knownFaces).name = some k → k ≠ "" →
      (bestMatch env.euclideanDistance q knownFaces).distance ≤ 0.6 →
      ∃ r, upload env knownFaces (some buffer) t =
        (r, t ++ [.loadImage buffer, .detectSingleFace img, .docGet k])) ∧
    ((bestMatch env.euclideanDistance q knownFaces).name = none →
      upload env knownFaces (some buffer) t =
        (.ok { status := 200, matchList := [] },
          t ++ [.loadImage buffer, .detectSingleFace img])) ∧
    (∀ k : String, k ≠ "" →
      gateRejects { name := some k, distance := 0.6 } = false ∧
      gateRejects { name := some k, distance := 0.599 } = false ∧
      gateRejects { name := some k, distance := 0.601 } = true) := by
  refine ⟨?_, ?_, ?_, ?_⟩
  · intro k _ _ hd
    exact upload_gate_rejects env knownFaces buffer t img q h1 h2
      ((gateRejects_iff _).mpr (Or.inr (Or.inr hd)))
  · intro k hk hne hd
    have hg : gateRejects (bestMatch env.euclideanDistance q knownFaces) = false := by
      rw [Bool.eq_false_iff]
      intro hrej
      rcases (gateRejects_iff _).mp hrej with h | h | h
      · rw [hk] at h; simp at h
      · rw [hk] at h; exact hne (Option.some.inj h)
      · exact absurd hd (not_le.mpr h)
    have hkey : (bestMatch env.euclideanDistance q knownFaces).name.getD "" = k := by
      rw [hk]; rfl
    cases hdoc : env.docGet ((bestMatch env.euclideanDistance q knownFaces).name.getD "") with
    | error e =>
      have := upload_lookup_throws env knownFaces buffer t img q e h1 h2 hg hdoc
      rw [hkey] at this
      exact ⟨_, this⟩
    | ok doc =>
      cases doc with
      | none =>
        have := upload_no_record env knownFaces buffer t img q h1 h2 hg hdoc
        rw [hkey] at this
        exact ⟨_, this⟩
      | some data =>
        have := upload_record env knownFaces buffer t img q data h1 h2 hg hdoc
        rw [hkey] at this
        exact ⟨_, this⟩
  · intro hn
    exact upload_gate_rejects env knownFaces buffer t img q h1 h2
      ((gateRejects_iff _).mpr (Or.inl hn))
  · intro k hk
    refine ⟨?_, ?_, ?_⟩
    · simp [gateRejects, isFalsy, hk]
    · simp [gateRejects, isFalsy, hk]; norm_num
    · simp [gateRejects, isFalsy, hk]; norm_num

/-- Witness for C2: the sample index and capabilities; the query `[1/2]` is at
distance 0 from `bob`, whose lookup is reached. -/
theorem threshold_gate_witness :
    ∃ r, upload sampleEnv sampleFaces (some [5]) [] =
      (r, [.loadImage [5], .detectSingleFace { pixels := [5] }, .docGet "bob"]) :=
  (threshold_gate sampleEnv sampleFaces [5] { pixels := [5] } [1 / 2] []
      (by simp [sampleEnv]) (by norm_num [sampleEnv])).2.1 "bob"
    (by norm_num [bestMatch, scanStep, sampleEnv, sampleFaces, dist1, abs_of_nonneg])
    (by decide)
    (by norm_num [bestMatch, scanStep, sampleEnv, sampleFaces, dist1, abs_of_nonneg])

/-- C10: the preload derives the empty key from the object names `img/` and
`img/.jpg`, and every request whose scan is won by an entry with the empty key
is answered `{ matches: [] }` with no document lookup, whatever its distance
and whatever the other entries of the index. -/
theorem empty_key_treated_as_null :
    baseName "img/" = "" ∧ baseName "img/.jpg" = "" ∧
    ∀ (env : Env) (knownFaces : List Face) (buffer : Buffer) (img : Image) (q : Descriptor)
      (t : List Call),
      env.loadImage buffer = .ok img → env.detectSingleFace img = .ok (some q) →
      (bestMatch env.euclideanDistance q knownFaces).name = some "" →
      upload env knownFaces (some buffer) t =
        (.ok { status := 200, matchList := [] },
          t ++ [.loadImage buffer, .detectSingleFace img]) ∧
      docLookups (upload env knownFaces (some buffer) t).2 = docLookups t := by
  refine ⟨by decide, by decide, ?_⟩
  intro env knownFaces buffer img q t h1 h2 h3
  have hrun := upload_gate_rejects env knownFaces buffer t img q h1 h2
    ((gateRejects_iff _).mpr (Or.inr (Or.inl h3)))
  refine ⟨hrun, ?_⟩
  rw [hrun]
  simp [docLookups]

/-- Witness for C10: the empty key at distance 0 wins over `alice` at distance
3/10, itself within 0.6; no lookup is made. -/
theorem empty_key_treated_as_null_witness :
    sampleEnv.euclideanDistance [1 / 2] [1 / 5] ≤ 0.6 ∧
    upload sampleEnv
        [{ name := "", descriptor := [1 / 2] }, { name := "alice", descriptor := [1 / 5] }]
        (some [5]) [] =
      (.ok { status := 200, matchList := [] },
        [.loadImage [5], .detectSingleFace { pixels := [5] }]) :=
  ⟨by norm_num [sampleEnv, dist1, abs_of_nonneg],
    (empty_key_treated_as_null.2.2 sampleEnv
      [{ name := "", descriptor := [1 / 2] }, { name := "alice", descriptor := [1 / 5] }]
      [5] { pixels := [5] } [1 / 2] []
      (by simp [sampleEnv]) (by norm_num [sampleEnv])
      (by norm_num [bestMatch, scanStep, sampleEnv, dist1, abs_of_nonneg])).1⟩

/-- C6: when the best match passes the gate and its key has a record, the
response is status 200 with exactly one match, whose five display fields are
the record's and whose distance is the best distance rounded to 3 decimals:
for a non-negative distance, as a Euclidean distance is, a multiple of 0.001
within 0.0005 of it.  With the
index `[(alice, D)]`, a query at distance 0.2 from `D` and a record labelled
`Alice Smith`, the single match has that label and distance 0.2. -/
theorem upload_success :
    (∀ (env : Env) (knownFaces : List Face) (buffer : Buffer) (img : Image) (q : Descriptor)
      (data : IdentityRecord) (t : List Call),
      env.loadImage buffer = .ok img → env.detectSingleFace img = .ok (some q) →
      gateRejects (bestMatch env.euclideanDistance q knownFaces) = false →
      env.docGet ((bestMatch env.euclideanDistance q knownFaces).name.getD "") = .ok (some data) →
      ∃ m : Match,
        (upload env knownFaces (some buffer) t).1 = .ok { status := 200, matchList := [m] } ∧
        m.label = data.label ∧ m.fechaNacimiento = data.fechaNacimiento ∧
        m.tlfEmergencia = data.tlfEmergencia ∧ m.cedula = data.cedula ∧
        m.imgUrl = data.imgUrl ∧
        m.distance = toFixed3 (bestMatch env.euclideanDistance q knownFaces).distance ∧
        (0 ≤ (bestMatch env.euclideanDistance q knownFaces).distance →
          (∃ n : ℤ, m.distance = (n : ℚ) / 1000) ∧
          |m.distance - (bestMatch env.euclideanDistance q knownFaces).distance| ≤ 1 / 2000)) ∧
    (∀ (env : Env) (D q : Descriptor) (buffer : Buffer) (img : Image) (data : IdentityRecord)
      (t : List Call),
      env.loadImage buffer = .ok img → env.detectSingleFace img = .ok (some q) →
      env.euclideanDistance q D = 0.2 →
      env.docGet "alice" = .ok (some data) → data.label = "Alice Smith" →
      (upload env [{ name := "alice", descriptor := D }] (some buffer) t).1 =
        .ok { status := 200,
              matchList := [{ label := "Alice Smith", fechaNacimiento := data.fechaNacimiento,
                              tlfEmergencia := data.tlfEmergencia, cedula := data.cedula,
                              imgUrl := data.imgUrl, distance := 0.2 }] }) := by
  constructor
  · intro env knownFaces buffer img q data t h1 h2 h3 h4
    have hrun := upload_record env knownFaces buffer t img q data h1 h2 h3 h4
    have hle : (bestMatch env.euclideanDistance q knownFaces).distance ≤ 0.6 := by
      by_contra hgt
      have := (gateRejects_iff _).mpr (Or.inr (Or.inr (not_le.mp hgt)))
      rw [h3] at this
      exact Bool.false_ne_true this
    refine ⟨{ label := data.label, fechaNacimiento := data.fechaNacimiento,
              tlfEmergencia := data.tlfEmergencia, cedula := data.cedula,
              imgUrl := data.imgUrl,
              distance := toFixed3 (bestMatch env.euclideanDistance q knownFaces).distance },
      ?_, rfl, rfl, rfl, rfl, rfl, rfl, ?_⟩
    · rw [hrun]
    · intro h0
      exact toFixed3_spec _ h0 (lt_of_le_of_lt hle (by norm_num))
  · intro env D q buffer img data t h1 h2 hd h4 hl
    have hb : bestMatch env.euclideanDistance q [{ name := "alice", descriptor := D }] =
        { name := some "alice", distance := 0.2 } := by
      simp only [bestMatch, List.foldl_cons, List.foldl_nil, scanStep, hd]
      norm_num
    have h3 : gateRejects (bestMatch env.euclideanDistance q
        [{ name := "alice", descriptor := D }]) = false := by
      rw [hb, Bool.eq_false_iff]
      intro hrej
      rcases (gateRejects_iff _).mp hrej with h | h | h
      · simp at h
      · simp at h
      · norm_num at h
    have h4k : env.docGet ((bestMatch env.euclideanDistance q
        [{ name := "alice", descriptor := D }]).name.getD "") = .ok (some data) := by
      rw [hb]; exact h4
    have hrun := upload_record env _ buffer t img q data h1 h2 h3 h4k
    have hfix : toFixed3 (0.2 : ℚ) = 0.2 := by
      norm_num [toFixed3, Int.floor_eq_iff]
    rw [hrun, hb, hfix, hl]

/-- Witness for C6: the sample capabilities; the query `[3/10]` is at distance
0.2 from the descriptor `[1/10]` of `alice`, whose record is returned. -/
theorem upload_success_witness :
    (upload sampleEnv [{ name := "alice", descriptor := [1 / 10] }] (some [3]) []).1 =
      .ok { status := 200,
            matchList := [{ label := "Alice Smith", fechaNacimiento := "1990-01-01",
                            tlfEmergencia := "555-0100", cedula := "V-1",
                            imgUrl := "https://example.org/alice.jpg", distance := 0.2 }] } :=
  upload_success.2 sampleEnv [1 / 10] [3 / 10] [3] { pixels := [3] } aliceRecord []
    (by simp [sampleEnv]) (by norm_num [sampleEnv])
    (by norm_num [sampleEnv, dist1, abs_of_nonneg]) (by simp [sampleEnv]) rfl

/-- C7: the expected-absence cases all answer `{ matches: [] }` with status 200
(not 500): no file uploaded, in which case no external call is made (the
trace is unchanged); no face detected; best match rejected by the gate; and no
record for the winning key. -/
theorem expected_absence_empty_matches (env : Env) (knownFaces : List Face) (t : List Call) :
    emptyMatches = { status := 200, matchList := [] } ∧ emptyMatches.status ≠ 500 ∧
    upload env knownFaces none t = (.ok emptyMatches, t) ∧
    (∀ (buffer : Buffer) (img : Image),
      env.loadImage buffer = .ok img → env.detectSingleFace img = .ok none →
      (upload env knownFaces (some buffer) t).1 = .ok emptyMatches) ∧
    (∀ (buffer : Buffer) (img : Image) (q : Descriptor),
      env.loadImage buffer = .ok img → env.detectSingleFace img = .ok (some q) →
      gateRejects (bestMatch env.euclideanDistance q knownFaces) = true →
      (upload env knownFaces (some buffer) t).1 = .ok emptyMatches) ∧
    (∀ (buffer : Buffer) (img : Image) (q : Descriptor),
      env.loadImage buffer = .ok img → env.detectSingleFace img = .ok (some q) →
      gateRejects (bestMatch env.euclideanDistance q knownFaces) = false →
      env.docGet ((bestMatch env.euclideanDistance q knownFaces).name.getD "") = .ok none →
      (upload env knownFaces (some buffer) t).1 = .ok emptyMatches) := by
  refine ⟨rfl, by decide, rfl, ?_, ?_, ?_⟩
  · intro buffer img h1 h2
    rw [upload_no_face env knownFaces buffer t img h1 h2]
  · intro buffer img q h1 h2 h3
    rw [upload_gate_rejects env knownFaces buffer t img q h1 h2 h3]
  · intro buffer img q h1 h2 h3 h4
    rw [upload_no_record env knownFaces buffer t img q h1 h2 h3 h4]

/-- Witness for C7: the winning key `erin`, at distance 0 from the query, has
no record in the sample store. -/
theorem expected_absence_empty_matches_witness :
    (upload sampleEnv [{ name := "erin", descriptor := [1 / 2] }] (some [5]) []).1 =
      .ok emptyMatches :=
  (expected_absence_empty_matches sampleEnv [{ name := "erin", descriptor := [1 / 2] }]
      []).2.2.2.2.2 [5] { pixels := [5] } [1 / 2]
    (by simp [sampleEnv]) (by norm_num [sampleEnv])
    (by norm_num [bestMatch, scanStep, sampleEnv, dist1, gateRejects, isFalsy]
        decide)
    (by simp [bestMatch, scanStep, sampleEnv, dist1])

/-- C8: the handler never lets an exception escape (its outcome is always a
response); when decoding, extraction or the document lookup throws, the
response is status 500 with `{ matches: [] }`, the same whatever the error;
and status 500 is answered only in those three cases. -/
theorem unexpected_error_500 (env : Env) (knownFaces : List Face) (t : List Call) :
    (∀ file : Option Buffer, ∃ r tr, upload env knownFaces file t = (.ok r, tr)) ∧
    (∀ (buffer : Buffer) (e : Err), env.loadImage buffer = .error e →
      (upload env knownFaces (some buffer) t).1 = .ok { status := 500, matchList := [] }) ∧
    (∀ (buffer : Buffer) (img : Image) (e : Err),
      env.loadImage buffer = .ok img → env.detectSingleFace img = .error e →
      (upload env knownFaces (some buffer) t).1 = .ok { status := 500, matchList := [] }) ∧
    (∀ (buffer : Buffer) (img : Image) (q : Descriptor) (e : Err),
      env.loadImage buffer = .ok img → env.detectSingleFace img = .ok (some q) →
      gateRejects (bestMatch env.euclideanDistance q knownFaces) = false →
      env.docGet ((bestMatch env.euclideanDistance q knownFaces).name.getD "") = .error e →
      (upload env knownFaces (some buffer) t).1 = .ok { status := 500, matchList := [] }) ∧
    (∀ (file : Option Buffer) (r : Response),
      (upload env knownFaces file t).1 = .ok r → r.status = 500 →
      ∃ buffer, file = some buffer ∧
        ((∃ e, env.loadImage buffer = .error e) ∨
         (∃ img e, env.loadImage buffer = .ok img ∧ env.detectSingleFace img = .error e) ∨
         (∃ img q e, env.loadImage buffer = .ok img ∧ env.detectSingleFace img = .ok (some q) ∧
            gateRejects (bestMatch env.euclideanDistance q knownFaces) = false ∧
            env.docGet ((bestMatch env.euclideanDistance q knownFaces).name.getD "") =
              .error e))) := by
  refine ⟨?_, ?_, ?_, ?_, ?_⟩
  · intro file
    cases file with
    | none => exact ⟨_, _, upload_no_file env knownFaces t⟩
    | some buffer =>
      cases h1 : env.loadImage buffer with
      | error e => exact ⟨_, _, upload_decode_throws env knownFaces buffer t e h1⟩
      | ok img =>
        cases h2 : env.detectSingleFace img with
        | error e => exact ⟨_, _, upload_detect_throws env knownFaces buffer t img e h1 h2⟩
        | ok det =>
          cases det with
          | none => exact ⟨_, _, upload_no_face env knownFaces buffer t img h1 h2⟩
          | some q =>
            cases h3 : gateRejects (bestMatch env.euclideanDistance q knownFaces) with
            | true => exact ⟨_, _, upload_gate_rejects env knownFaces buffer t img q h1 h2 h3⟩
            | false =>
              cases h4 : env.docGet
                  ((bestMatch env.euclideanDistance q knownFaces).name.getD "") with
              | error e =>
                exact ⟨_, _, upload_lookup_throws env knownFaces buffer t img q e h1 h2 h3 h4⟩
              | ok doc =>
                cases doc with
                | none =>
                  exact ⟨_, _, upload_no_record env knownFaces buffer t img q h1 h2 h3 h4⟩
                | some data =>
                  exact ⟨_, _, upload_record env knownFaces buffer t img q data h1 h2 h3 h4⟩
  · intro buffer e h1
    rw [upload_decode_throws env knownFaces buffer t e h1]
  · intro buffer img e h1 h2
    rw [upload_detect_throws env knownFaces buffer t img e h1 h2]
  · intro buffer img q e h1 h2 h3 h4
    rw [upload_lookup_throws env knownFaces buffer t img q e h1 h2 h3 h4]
  · intro file r hr hs
    cases file with
    | none =>
      rw [upload_no_file] at hr
      cases hr
      simp [emptyMatches] at hs
    | some buffer =>
      refine ⟨buffer, rfl, ?_⟩
      cases h1 : env.loadImage buffer with
      | error e => exact Or.inl ⟨e, rfl⟩
      | ok img =>
        cases h2 : env.detectSingleFace img with
        | error e => exact Or.inr (Or.inl ⟨img, e, rfl, h2⟩)
        | ok det =>
          cases det with
          | none =>
            rw [upload_no_face env knownFaces buffer t img h1 h2] at hr
            cases hr
            simp [emptyMatches] at hs
          | some q =>
            cases h3 : gateRejects (bestMatch env.euclideanDistance q knownFaces) with
            | true =>
              rw [upload_gate_rejects env knownFaces buffer t img q h1 h2 h3] at hr
              cases hr
              simp [emptyMatches] at hs
            | false =>
              cases h4 : env.docGet
                  ((bestMatch env.euclideanDistance q knownFaces).name.getD "") with
              | error e => exact Or.inr (Or.inr ⟨img, q, e, rfl, h2, h3, h4⟩)
              | ok doc =>
                cases doc with
                | none =>
                  rw [upload_no_record env knownFaces buffer t img q h1 h2 h3 h4] at hr
                  cases hr
                  simp [emptyMatches] at hs
                | some data =>
                  rw [upload_record env knownFaces buffer t img q data h1 h2 h3 h4] at hr
                  cases hr
                  simp at hs

/-- Witness for C8: in the sample store the lookup of `bob` throws; the query
`[1/2]` is at distance 0 from `bob`. -/
theorem unexpected_error_500_witness :
    (upload sampleEnv sampleFaces (some [5]) []).1 = .ok { status := 500, matchList := [] } :=
  (unexpected_error_500 sampleEnv sampleFaces []).2.2.2.1 [5] { pixels := [5] } [1 / 2]
    { message := "DEADLINE_EXCEEDED" }
    (by simp [sampleEnv]) (by norm_num [sampleEnv])
    (by norm_num [bestMatch, scanStep, sampleEnv, sampleFaces, dist1, gateRejects, isFalsy,
      abs_of_nonneg]
        decide)
    (by norm_num [bestMatch, scanStep, sampleEnv, sampleFaces, dist1, abs_of_nonneg]
        intro h
        exact absurd h (by decide))

/-! ## The preload loop -/

/-- One iteration never throws; it requests the metadata of its object first,
and appends the entry the object contributes, if any. -/
theorem preloadFile_run (env : Env) (file : StoredFile) (knownFaces : List Face)
    (t : List Call) :
    ∃ tr, preloadFile env file knownFaces t =
        (.ok (knownFaces ++ (loadedFace env file).toList), t ++ .getMetadata file.name :: tr) ∧
      metadataRequests tr = [] := by
  cases h1 : file.getMetadata with
  | error e =>
    exact ⟨[], by simp [preloadFile, preloadTry, loadedFace, Eff.tryCatch, Eff.call, bind,
      Eff.andThen, pure, Eff.ret, h1], rfl⟩
  | ok ct =>
    cases h2 : isImageType ct with
    | false =>
      exact ⟨[], by simp [preloadFile, preloadTry, loadedFace, Eff.tryCatch, Eff.call, bind,
        Eff.andThen, pure, Eff.ret, h1, h2], rfl⟩
    | true =>
      cases h3 : file.download with
      | error e =>
        exact ⟨[.download file.name], by simp [preloadFile, preloadTry, loadedFace,
          Eff.tryCatch, Eff.call, bind, Eff.andThen, pure, Eff.ret, h1, h2, h3], rfl⟩
      | ok buffer =>
        cases h4 : env.loadImage buffer with
        | error e =>
          exact ⟨[.download file.name, .loadImage buffer], by simp [preloadFile, preloadTry,
            loadedFace, Eff.tryCatch, Eff.call, bind, Eff.andThen, pure, Eff.ret, h1, h2, h3,
            h4], rfl⟩
        | ok img =>
          cases h5 : env.detectSingleFace img with
          | error e =>
            exact ⟨[.download file.name, .loadImage buffer, .detectSingleFace img],
              by simp [preloadFile, preloadTry, loadedFace, Eff.tryCatch, Eff.call, bind,
                Eff.andThen, pure, Eff.ret, h1, h2, h3, h4, h5], rfl⟩
          | ok det =>
            cases det with
            | none =>
              exact ⟨[.download file.name, .loadImage buffer, .detectSingleFace img],
                by simp [preloadFile, preloadTry, loadedFace, Eff.tryCatch, Eff.call, bind,
                  Eff.andThen, pure, Eff.ret, h1, h2, h3, h4, h5], rfl⟩
            | some d =>
              exact ⟨[.download file.name, .loadImage buffer, .detectSingleFace img],
                by simp [preloadFile, preloadTry, loadedFace, Eff.tryCatch, Eff.call, bind,
                  Eff.andThen, pure, Eff.ret, h1, h2, h3, h4, h5], rfl⟩

/-- The loop never throws, requests the metadata of every listed object in
order, and appends the contributed entries in listing order. -/
theorem preloadLoop_run (env : Env) (files : List StoredFile) :
    ∀ (knownFaces : List Face) (t : List Call),
      ∃ tr, preloadLoop env files knownFaces t =
          (.ok (knownFaces ++ files.filterMap (loadedFace env)), tr) ∧
        metadataRequests tr = metadataRequests t ++ files.map StoredFile.name := by
  induction files with
  | nil =>
    intro knownFaces t
    exact ⟨t, by simp [preloadLoop, pure, Eff.ret], by simp⟩
  | cons file rest ih =>
    intro knownFaces t
    obtain ⟨tr1, h1, hm1⟩ := preloadFile_run env file knownFaces t
    obtain ⟨tr, h2, hm2⟩ := ih (knownFaces ++ (loadedFace env file).toList)
      (t ++ .getMetadata file.name :: tr1)
    refine ⟨tr, ?_, ?_⟩
    · simp only [preloadLoop, bind, Eff.andThen, h1, h2]
      cases hlf : loadedFace env file <;> simp [List.filterMap_cons, hlf]
    · rw [hm2]
      simp [metadataRequests, List.filterMap_append] at hm1 ⊢
      exact hm1

/-- What it means for an object to contribute an entry. -/
theorem loadedFace_eq_some_iff (env : Env) (file : StoredFile) (face : Face) :
    loadedFace env file = some face ↔
      ∃ ct buffer img d, file.getMetadata = .ok ct ∧ isImageType ct = true ∧
        file.download = .ok buffer ∧ env.loadImage buffer = .ok img ∧
        env.detectSingleFace img = .ok (some d) ∧
        face = { name := baseName file.name, descriptor := d } := by
  unfold loadedFace
  cases h1 : file.getMetadata with
  | error e => simp
  | ok ct =>
    cases h2 : isImageType ct with
    | false => simp [h2]
    | true =>
      cases h3 : file.download with
      | error e => simp [h2]
      | ok buffer =>
        cases h4 : env.loadImage buffer with
        | error e => simp [h2, h4]
        | ok img =>
          cases h5 : env.detectSingleFace img with
          | error e => simp [h2, h4, h5]
          | ok det =>
            cases det with
            | none => simp [h2, h4, h5]
            | some d =>
              simp [h2, h4, h5]
              exact eq_comm

/-- Length of a `filterMap`, one element at a time. -/
theorem length_filterMap_cons {α β : Type} (f : α → Option β) (a : α) (l : List α) :
    (List.filterMap f (a :: l)).length =
      (if (f a).isSome then 1 else 0) + (List.filterMap f l).length := by
  cases h : f a <;> simp [List.filterMap_cons, h, Nat.add_comm]

/-- Five objects of which two contribute nothing and three contribute an entry
give three entries. -/
theorem five_objects_three_entries (env : Env) (files : Fin 5 → StoredFile) (i j : Fin 5)
    (hij : i ≠ j) (hi : loadedFace env (files i) = none) (hj : loadedFace env (files j) = none)
    (hk : ∀ k, k ≠ i → k ≠ j → (loadedFace env (files k)).isSome = true) :
    ((List.ofFn files).filterMap (loadedFace env)).length = 3 := by
  have h0 := hk 0
  have h1 := hk 1
  have h2 := hk 2
  have h3 := hk 3
  have h4 := hk 4
  have e : List.ofFn files = [files 0, files 1, files 2, files 3, files 4] := by
    simp [List.ofFn_succ]
    exact ⟨rfl, rfl⟩
  rw [e]
  clear hk e
  simp only [length_filterMap_cons, List.filterMap_nil, List.length_nil]
  fin_cases i <;> fin_cases j <;> simp at hij <;> simp at hi hj h0 h1 h2 h3 h4 <;>
    simp [hi, hj, h0, h1, h2, h3, h4]

/-- C4: for every list of objects, whichever of them fail and however, the
preload loop ends without exception, requests the metadata of every listed
object in listing order, and leaves `knownFaces` (initially empty) equal to the
list, in listing order, of one entry `(derived key, descriptor)` per object
that is an image, downloads, decodes and yields a descriptor.  With five
objects of which one is not an image, one throws on download and the other
three succeed, `knownFaces` ends with three entries. -/
theorem preload_isolates_failures (env : Env) :
    (∀ (files : List StoredFile) (t : List Call),
      ∃ tr, preload env files t = (.ok (files.filterMap (loadedFace env)), tr) ∧
        metadataRequests tr = metadataRequests t ++ files.map StoredFile.name) ∧
    (∀ (file : StoredFile) (face : Face),
      loadedFace env file = some face ↔
        ∃ ct buffer img d, file.getMetadata = .ok ct ∧ isImageType ct = true ∧
          file.download = .ok buffer ∧ env.loadImage buffer = .ok img ∧
          env.detectSingleFace img = .ok (some d) ∧
          face = { name := baseName file.name, descriptor := d }) ∧
    (∀ (files : Fin 5 → StoredFile) (i j : Fin 5) (ci cj : Option String) (e : Err)
      (t : List Call),
      i ≠ j →
      (files i).getMetadata = .ok ci → isImageType ci = false →
      (files j).getMetadata = .ok cj → isImageType cj = true → (files j).download = .error e →
      (∀ k, k ≠ i → k ≠ j → (loadedFace env (files k)).isSome = true) →
      ∃ fs tr, preload env (List.ofFn files) t = (.ok fs, tr) ∧ fs.length = 3) := by
  refine ⟨?_, loadedFace_eq_some_iff env, ?_⟩
  · intro files t
    obtain ⟨tr, hrun, htr⟩ := preloadLoop_run env files [] t
    exact ⟨tr, by simpa [preload] using hrun, htr⟩
  · intro files i j ci cj e t hij hi1 hi2 hj1 hj2 hj3 hk
    obtain ⟨tr, hrun, _⟩ := preloadLoop_run env (List.ofFn files) [] t
    refine ⟨_, tr, by simpa [preload] using hrun, ?_⟩
    have hi : loadedFace env (files i) = none := by simp [loadedFace, hi1, hi2]
    have hj : loadedFace env (files j) = none := by simp [loadedFace, hj1, hj2, hj3]
    exact five_objects_three_entries env files i j hij hi hj hk

/-- Witness for C4: the five sample objects; `notes.txt` is not an image and
`broken.jpg` throws on download. -/
theorem preload_isolates_failures_witness :
    ∃ tr, preload sampleEnv sampleFiles [] =
        (.ok [{ name := "alice", descriptor := [2 / 10] },
              { name := "bob", descriptor := [5 / 10] },
              { name := "carol", descriptor := [7 / 10] }], tr) ∧
      metadataRequests tr =
        ["img/alice.jpg", "img/notes.txt", "img/bob.png", "img/broken.jpg", "img/carol.jpg"] := by
  have h := (preload_isolates_failures sampleEnv).1 sampleFiles []
  have hfaces : sampleFiles.filterMap (loadedFace sampleEnv) =
      [{ name := "alice", descriptor := [2 / 10] },
       { name := "bob", descriptor := [5 / 10] },
       { name := "carol", descriptor := [7 / 10] }] := by
    have ha : baseName "img/alice.jpg" = "alice" := by decide
    have hb : baseName "img/bob.png" = "bob" := by decide
    have hc : baseName "img/carol.jpg" = "carol" := by decide
    have hj : isImageType (some "image/jpeg") = true := by decide
    have hp : isImageType (some "image/png") = true := by decide
    have ht : isImageType (some "text/plain") = false := by decide
    simp [sampleFiles, loadedFace, sampleEnv, ha, hb, hc, hj, hp, ht]
  rw [hfaces] at h
  simpa [metadataRequests, sampleFiles] using h

end FMFirebaseFace
